import Mathlib

/-!
Verification development for the tiered interest calculator
(src/src/components/InterestCalculator.jsx).

The numeric engine works on JavaScript floating point numbers; here they
are idealized as exact rationals (and as reals where the compound-interest
power function is needed).  The special values NaN / Infinity / -Infinity
that JavaScript numbers can take are modelled explicitly (JSNum) where the
code's behaviour depends on them, namely in input validation and in the
tier-threshold list whose last element is the literal string Infinity.
-/

/-- Time period unit, source field timePeriod.unit (day / month / quarter / year). -/
inductive TimeUnit where
  | day
  | month
  | quarter
  | year
deriving DecidableEq

/-- Compounding frequency, source state compoundFrequency
(annually / semi-annually / quarterly / monthly). -/
inductive Frequency where
  | annually
  | semiAnnually
  | quarterly
  | monthly
deriving DecidableEq

/-- Interest mode: source boolean isCompound plus, when compound, the frequency. -/
inductive Mode where
  | simple
  | compound (freq : Frequency)
deriving DecidableEq

/-- A parsed tier threshold (source getCurrentTiers, lines 92-100): the string
Infinity becomes the JS value Infinity, every other threshold string parses to a
finite number.  Threshold strings that parse to NaN are outside every claim and
are not modelled. -/
inductive Threshold where
  | val (q : ℚ)
  | inf
deriving DecidableEq

/-- A JavaScript number as seen by the validation code: NaN, plus or minus
Infinity, or a finite value (idealized as an exact rational). -/
inductive JSNum where
  | nan
  | posInf
  | negInf
  | fin (q : ℚ)
deriving DecidableEq

/-- JS isNaN on a parsed number. -/
def jsIsNaN : JSNum → Bool
  | JSNum.nan => true
  | _ => false

/-- JS comparison a <= b (IEEE semantics: false whenever either side is NaN). -/
def jsLe : JSNum → JSNum → Bool
  | JSNum.nan, _ => false
  | _, JSNum.nan => false
  | JSNum.negInf, _ => true
  | _, JSNum.posInf => true
  | JSNum.posInf, _ => false
  | JSNum.fin _, JSNum.negInf => false
  | JSNum.fin a, JSNum.fin b => decide (a ≤ b)

/-- JS comparison a < b (IEEE semantics: false whenever either side is NaN). -/
def jsLt : JSNum → JSNum → Bool
  | JSNum.nan, _ => false
  | _, JSNum.nan => false
  | _, JSNum.negInf => false
  | JSNum.negInf, _ => true
  | JSNum.posInf, _ => false
  | _, JSNum.posInf => true
  | JSNum.fin a, JSNum.fin b => decide (a < b)

/-- Is the JS number a finite value?  (Used only to state the spec's claimed
validation rule; the source never tests finiteness.) -/
def jsFinite : JSNum → Bool
  | JSNum.fin _ => true
  | _ => false

/-- Extract the rational payload of a finite JS number.  Every theorem about
numeric output below reaches the core only with finite values; non-finite
values that survive the source's validation (JS Infinity) would flow through
JS Infinity/NaN arithmetic, which no claim's numeric statement touches. -/
def toQ : JSNum → ℚ
  | JSNum.fin q => q
  | _ => 0

/-- Year fraction of the requested period (source lines 366-381: the
periodFactor switch of the simple branch; the compound branch recomputes the
same quantity under the name timeInYears, lines 312-328). -/
def periodFactor : TimeUnit → ℚ → ℚ
  | TimeUnit.day, v => v / 365
  | TimeUnit.month, v => v / 12
  | TimeUnit.quarter, v => v / 4
  | TimeUnit.year, v => v

/-- The compound branch's timeInYears switch (lines 312-328); textually the
same conversion as periodFactor. -/
def timeInYears : TimeUnit → ℚ → ℚ
  | TimeUnit.day, v => v / 365
  | TimeUnit.month, v => v / 12
  | TimeUnit.quarter, v => v / 4
  | TimeUnit.year, v => v

/-- Compounds per year from the frequency switch (source lines 295-310). -/
def compoundsPerYear : Frequency → ℕ
  | Frequency.monthly => 12
  | Frequency.quarterly => 4
  | Frequency.semiAnnually => 2
  | Frequency.annually => 1

/-- One row of the result's tierBreakdown (source object pushed at lines
339-344 and 389-394).  The human-readable tier name is replaced by the tier's
index; the name is pure display formatting. -/
structure BreakdownEntry where
  tier : ℕ
  amount : ℚ
  rate : ℚ
  interest : ℚ
deriving DecidableEq

/-- The simple-interest loop of calculateInterest (source lines 352-400),
one recursive step per tier:

  prevTierMax = i == 0 ? 0 : previous maxAmount   (the prev argument)
  tierLimit   = tier.maxAmount - prevTierMax
  amountInTier = Math.min(remaining, tierLimit)
  if (amountInTier <= 0) break
  periodInterest = (amountInTier * (rate / 100)) * periodFactor
  push breakdown entry; remaining -= amountInTier
  if (remaining <= 0) break

A tier whose maxAmount is Infinity has unbounded tierLimit, so it takes all of
remaining and the loop then stops.  A tier positioned after an Infinity tier
would have tierLimit -Infinity (or NaN); the loop can never reach such a tier,
because an Infinity tier always ends the loop, so that branch returns []. -/
def simpleLoop (rates : List ℚ) (pf : ℚ) : ℕ → Threshold → ℚ → List Threshold → List BreakdownEntry
  | _, _, _, [] => []
  | i, Threshold.val p, remaining, Threshold.val m :: ts =>
    if min remaining (m - p) ≤ 0 then []
    else if remaining - min remaining (m - p) ≤ 0 then
      [⟨i, min remaining (m - p), rates.getD i 0,
        min remaining (m - p) * (rates.getD i 0 / 100) * pf⟩]
    else
      ⟨i, min remaining (m - p), rates.getD i 0,
        min remaining (m - p) * (rates.getD i 0 / 100) * pf⟩ ::
        simpleLoop rates pf (i + 1) (Threshold.val m) (remaining - min remaining (m - p)) ts
  | i, Threshold.val _, remaining, Threshold.inf :: _ =>
    if remaining ≤ 0 then []
    else
      [⟨i, remaining, rates.getD i 0, remaining * (rates.getD i 0 / 100) * pf⟩]
  | _, Threshold.inf, _, _ :: _ => []

/-- Sum of the allocated amounts of a breakdown. -/
def sumAllocated (l : List BreakdownEntry) : ℚ :=
  (l.map BreakdownEntry.amount).sum

/-- The source accumulates totalInterest alongside the loop; its final value
is the sum of the interest values pushed into the breakdown. -/
def totalInterestOf (l : List BreakdownEntry) : ℚ :=
  (l.map BreakdownEntry.interest).sum

/-- Annualization factor switch (source lines 407-422). -/
def annualizationFactor : TimeUnit → ℚ → ℚ
  | TimeUnit.day, v => 365 / v
  | TimeUnit.month, v => 12 / v
  | TimeUnit.quarter, v => 4 / v
  | TimeUnit.year, v => 1 / v

/-- Effective rate computation (source lines 403-427):
effectiveRate = (totalInterest / depositAmount) * 100, annualized unless the
period is exactly 1 year. -/
def annualizedEffectiveRate (totalInterest deposit : ℚ) (u : TimeUnit) (v : ℚ) : ℚ :=
  if u = TimeUnit.year ∧ v = 1 then totalInterest / deposit * 100
  else totalInterest / deposit * 100 * annualizationFactor u v

/-- The simple-mode CalculationResult (source newResult object, lines 429-441).
The timestamp and the frozen copies of the raw input strings are omitted: no
claim mentions them. -/
structure SimpleResult where
  depositAmount : ℚ
  tierBreakdown : List BreakdownEntry
  totalInterest : ℚ
  effectiveRate : ℚ
  totalAmount : ℚ
deriving DecidableEq

/-- calculateInterest's simple-mode computation after validation has passed
(source lines 274-441 with isCompound = false). -/
def calculateSimple (deposit : ℚ) (thresholds : List Threshold) (rates : List ℚ)
    (u : TimeUnit) (v : ℚ) : SimpleResult :=
  { depositAmount := deposit
    tierBreakdown := simpleLoop rates (periodFactor u v) 0 (Threshold.val 0) deposit thresholds
    totalInterest := totalInterestOf
      (simpleLoop rates (periodFactor u v) 0 (Threshold.val 0) deposit thresholds)
    effectiveRate := annualizedEffectiveRate
      (totalInterestOf (simpleLoop rates (periodFactor u v) 0 (Threshold.val 0) deposit thresholds))
      deposit u v
    totalAmount := deposit + totalInterestOf
      (simpleLoop rates (periodFactor u v) 0 (Threshold.val 0) deposit thresholds) }

/-- One row of the compound-mode tierBreakdown (source object pushed at lines
339-344).  The interest is a real number because compound interest uses the
real power function. -/
structure CBreakdownEntry where
  tier : ℕ
  amount : ℚ
  rate : ℚ
  interest : ℝ

/-- Compound interest of one tier (source lines 330-334):
rateDecimal = rate / 100, compoundFactor = (1 + rateDecimal/n) ^ (n*t),
finalAmount = amountInTier * compoundFactor,
tierInterest = finalAmount - amountInTier.  The JS Math.pow with a real
exponent is modelled by the real power function. -/
noncomputable def compoundTierInterest (a r : ℚ) (n : ℕ) (t : ℚ) : ℝ :=
  (a : ℝ) * (1 + ((r : ℝ) / 100) / (n : ℝ)) ^ ((n : ℝ) * (t : ℝ)) - (a : ℝ)

/-- The compound-interest loop of calculateInterest (source lines 280-350).
Its allocation logic is line-for-line the same as the simple branch; only the
per-tier interest formula differs. -/
noncomputable def compoundLoop (rates : List ℚ) (n : ℕ) (t : ℚ) :
    ℕ → Threshold → ℚ → List Threshold → List CBreakdownEntry
  | _, _, _, [] => []
  | i, Threshold.val p, remaining, Threshold.val m :: ts =>
    if min remaining (m - p) ≤ 0 then []
    else if remaining - min remaining (m - p) ≤ 0 then
      [⟨i, min remaining (m - p), rates.getD i 0,
        compoundTierInterest (min remaining (m - p)) (rates.getD i 0) n t⟩]
    else
      ⟨i, min remaining (m - p), rates.getD i 0,
        compoundTierInterest (min remaining (m - p)) (rates.getD i 0) n t⟩ ::
        compoundLoop rates n t (i + 1) (Threshold.val m) (remaining - min remaining (m - p)) ts
  | i, Threshold.val _, remaining, Threshold.inf :: _ =>
    if remaining ≤ 0 then []
    else [⟨i, remaining, rates.getD i 0, compoundTierInterest remaining (rates.getD i 0) n t⟩]
  | _, Threshold.inf, _, _ :: _ => []

/-- Total interest of a compound breakdown (the source's running accumulator
equals the sum of the pushed interests). -/
noncomputable def totalInterestOfC (l : List CBreakdownEntry) : ℝ :=
  (l.map CBreakdownEntry.interest).sum

/-- Annualization factor over the reals, for the compound-mode result (same
source switch, lines 407-422). -/
noncomputable def annualizationFactorR : TimeUnit → ℚ → ℝ
  | TimeUnit.day, v => 365 / (v : ℝ)
  | TimeUnit.month, v => 12 / (v : ℝ)
  | TimeUnit.quarter, v => 4 / (v : ℝ)
  | TimeUnit.year, v => 1 / (v : ℝ)

/-- Effective rate computation over the reals (source lines 403-427), used by
the compound-mode result. -/
noncomputable def annualizedEffectiveRateR (totalInterest : ℝ) (deposit : ℚ)
    (u : TimeUnit) (v : ℚ) : ℝ :=
  if u = TimeUnit.year ∧ v = 1 then totalInterest / (deposit : ℝ) * 100
  else totalInterest / (deposit : ℝ) * 100 * annualizationFactorR u v

/-- The compound-mode CalculationResult (source lines 429-441 with
isCompound = true). -/
structure CompoundResult where
  depositAmount : ℚ
  tierBreakdown : List CBreakdownEntry
  totalInterest : ℝ
  effectiveRate : ℝ
  totalAmount : ℝ

/-- calculateInterest's compound-mode computation after validation has passed
(source lines 274-441 with isCompound = true). -/
noncomputable def calculateCompound (deposit : ℚ) (thresholds : List Threshold)
    (rates : List ℚ) (u : TimeUnit) (v : ℚ) (f : Frequency) : CompoundResult :=
  { depositAmount := deposit
    tierBreakdown := compoundLoop rates (compoundsPerYear f) (timeInYears u v)
      0 (Threshold.val 0) deposit thresholds
    totalInterest := totalInterestOfC (compoundLoop rates (compoundsPerYear f)
      (timeInYears u v) 0 (Threshold.val 0) deposit thresholds)
    effectiveRate := annualizedEffectiveRateR
      (totalInterestOfC (compoundLoop rates (compoundsPerYear f) (timeInYears u v)
        0 (Threshold.val 0) deposit thresholds)) deposit u v
    totalAmount := (deposit : ℝ) + totalInterestOfC (compoundLoop rates
      (compoundsPerYear f) (timeInYears u v) 0 (Threshold.val 0) deposit thresholds) }

/-- A stored CalculationResult, either mode. -/
inductive Payload where
  | simpleRes (r : SimpleResult)
  | compoundRes (r : CompoundResult)

/-- The inputs of one press of the Calculate button, after the string parsing
that the source applies first: principal = parseIndianFormat(amount)
(line 252), rates = interestRates.map(parseFloat) (line 260),
periodValue = parseFloat(timePeriod.value) (line 267), thresholds from
getCurrentTiers (line 274). -/
structure Inputs where
  principal : JSNum
  thresholds : List Threshold
  rates : List JSNum
  periodValue : JSNum
  unit : TimeUnit
  mode : Mode

/-- Caller-side state touched by calculateInterest: the displayed result and
the saved-calculations history (source state variables result and
savedCalculations; the localStorage mirror is write-only and not modelled). -/
structure AppState where
  result : Option Payload
  savedCalculations : List Payload

/-- The three validation gates of calculateInterest (source lines 254-271):
principal not NaN and > 0; no rate NaN or negative; period value not NaN
and > 0. -/
def passesValidation (inp : Inputs) : Bool :=
  !(jsIsNaN inp.principal || jsLe inp.principal (JSNum.fin 0)) &&
  !(inp.rates.any fun r => jsIsNaN r || jsLt r (JSNum.fin 0)) &&
  !(jsIsNaN inp.periodValue || jsLe inp.periodValue (JSNum.fin 0))

/-- The newResult record built at lines 429-441, dispatching on the mode. -/
noncomputable def mkPayload (inp : Inputs) : Payload :=
  match inp.mode with
  | Mode.simple => Payload.simpleRes (calculateSimple (toQ inp.principal) inp.thresholds
      (inp.rates.map toQ) inp.unit (toQ inp.periodValue))
  | Mode.compound f => Payload.compoundRes (calculateCompound (toQ inp.principal) inp.thresholds
      (inp.rates.map toQ) inp.unit (toQ inp.periodValue) f)

/-- calculateInterest as a state transition (source lines 250-449): each
failed validation alerts and returns with the state untouched; on success the
new result is stored and prepended to the history, which is truncated to 10
entries (line 446). -/
noncomputable def calcStep (s : AppState) (inp : Inputs) : AppState :=
  if jsIsNaN inp.principal || jsLe inp.principal (JSNum.fin 0) then s
  else if inp.rates.any (fun r => jsIsNaN r || jsLt r (JSNum.fin 0)) then s
  else if jsIsNaN inp.periodValue || jsLe inp.periodValue (JSNum.fin 0) then s
  else
    { result := some (mkPayload inp)
      savedCalculations := (mkPayload inp :: s.savedCalculations).take 10 }

/-- The tier configuration owned by the component: the threshold list (last
element the Infinity sentinel) and the parallel rate list (source state
tierThresholds and interestRates). -/
structure TierConfig where
  thresholds : List Threshold
  rates : List ℚ
deriving DecidableEq

/-- Source defaults (line 52-53): rates 4.00 / 6.25 / 7.50 / 7.75 and
thresholds 100000 / 500000 / 500000000 / Infinity. -/
def defaultRates : List ℚ := [4, 25/4, 15/2, 31/4]

/-- Default thresholds (source line 53). -/
def defaultThresholds : List Threshold :=
  [Threshold.val 100000, Threshold.val 500000, Threshold.val 500000000, Threshold.inf]

/-- The default configuration pair. -/
def defaultConfig : TierConfig := ⟨defaultThresholds, defaultRates⟩

/-- Rate-list repair of updateTierThreshold (source lines 170-180): push the
default rate 4.00 until long enough, pop until short enough. -/
def repairRates (rs : List ℚ) (n : ℕ) : List ℚ :=
  if rs.length < n then rs ++ List.replicate (n - rs.length) 4 else rs.take n

/-- updateTierThreshold (source lines 161-184): refuse to edit the last
(Infinity) index, otherwise overwrite the indexed threshold and repair the
rate list.  In JS an out-of-range index would extend the array; that path is
never taken by the component, which renders an edit box only for indices
below length - 1, and is modelled as the no-op of List.set. -/
def updateTierThreshold (c : TierConfig) (index : ℕ) (value : Threshold) : TierConfig :=
  if index = c.thresholds.length - 1 then c
  else
    ⟨c.thresholds.set index value, repairRates c.rates (c.thresholds.set index value).length⟩

/-- The threshold value addTier inserts (source lines 194-196):
parseFloat(thresholds[length - 2]) || 100000, doubled.  The JS fallback fires
on NaN or 0; an out-of-range read (configuration of fewer than two entries,
unreachable from the defaults) is modelled by the same fallback. -/
def suggestedThreshold (c : TierConfig) : Threshold :=
  match c.thresholds.getD (c.thresholds.length - 2) (Threshold.val 0) with
  | Threshold.val q => if q = 0 then Threshold.val 200000 else Threshold.val (q * 2)
  | Threshold.inf => Threshold.inf

/-- addTier (source lines 187-210): refuse beyond 10 tiers, otherwise splice
the suggested threshold in just before the Infinity sentinel and append the
default rate 4.00. -/
def addTier (c : TierConfig) : TierConfig :=
  if 10 ≤ c.thresholds.length then c
  else
    ⟨c.thresholds.take (c.thresholds.length - 1) ++
        suggestedThreshold c :: c.thresholds.drop (c.thresholds.length - 1),
      c.rates ++ [4]⟩

/-- removeTier (source lines 213-236): refuse when only two tiers remain or
when asked for the last (Infinity) index, otherwise filter out the indexed
threshold and rate (filter by index equals eraseIdx, and is the identity for
an out-of-range index, as in JS). -/
def removeTier (c : TierConfig) (index : ℕ) : TierConfig :=
  if c.thresholds.length ≤ 2 then c
  else if index = c.thresholds.length - 1 then c
  else ⟨c.thresholds.eraseIdx index, c.rates.eraseIdx index⟩

/-- resetToDefaults (source lines 239-248). -/
def resetToDefaults (_ : TierConfig) : TierConfig := defaultConfig

/-- One tier-editing action of the component. -/
inductive TierOp where
  | update (index : ℕ) (value : Threshold)
  | add
  | remove (index : ℕ)
  | reset

/-- Apply one tier-editing action. -/
def applyOp (c : TierConfig) : TierOp → TierConfig
  | TierOp.update i v => updateTierThreshold c i v
  | TierOp.add => addTier c
  | TierOp.remove i => removeTier c i
  | TierOp.reset => resetToDefaults c

/-- Apply a sequence of tier-editing actions, oldest first. -/
def applyOps (c : TierConfig) (ops : List TierOp) : TierConfig :=
  ops.foldl applyOp c

/-- Modelled from the spec: the phrase "sum of all finite tier capacities" of
claim C2 and section 8 of the spec.  A tier's capacity is its boundary minus
the previous boundary; only tiers whose both bounds are finite contribute.
Stated here solely to compare the spec's claimed allocation total with the
source's behaviour. -/
def specFiniteCapacitySum : Threshold → List Threshold → ℚ
  | Threshold.val p, Threshold.val m :: ts => (m - p) + specFiniteCapacitySum (Threshold.val m) ts
  | Threshold.inf, Threshold.val m :: ts => specFiniteCapacitySum (Threshold.val m) ts
  | _, Threshold.inf :: ts => specFiniteCapacitySum Threshold.inf ts
  | _, [] => 0

/-- Modelled from the spec: the rejection condition claim C5 asserts —
principal non-numeric (NaN) or non-positive, any rate negative or NON-FINITE,
duration value non-positive or NON-FINITE.  The source's actual checks differ:
they never test finiteness. -/
def specInvalidInputs (inp : Inputs) : Bool :=
  (jsIsNaN inp.principal || jsLe inp.principal (JSNum.fin 0)) ||
  (inp.rates.any fun r => jsLt r (JSNum.fin 0) || !(jsFinite r)) ||
  (!(jsFinite inp.periodValue) || jsLe inp.periodValue (JSNum.fin 0))

/-- C1: for principal 600000, boundaries [100000, 500000, Infinity], rates
[4.00, 6.25, 7.50], duration 1 year, Simple mode, the breakdown allocates
100000 / 400000 / 100000 to the three tiers with interests 4000 / 25000 / 7500,
totalInterest 36500, totalAmount 636500, and an effective annual rate of
36500/600000*100 = 73/12, which is within 0.0001 of 6.0833. -/
theorem claim1_concrete_scenario :
    (calculateSimple 600000 [Threshold.val 100000, Threshold.val 500000, Threshold.inf]
        [4, 25/4, 15/2] TimeUnit.year 1).tierBreakdown =
      [⟨0, 100000, 4, 4000⟩, ⟨1, 400000, 25/4, 25000⟩, ⟨2, 100000, 15/2, 7500⟩] ∧
    (calculateSimple 600000 [Threshold.val 100000, Threshold.val 500000, Threshold.inf]
        [4, 25/4, 15/2] TimeUnit.year 1).totalInterest = 36500 ∧
    (calculateSimple 600000 [Threshold.val 100000, Threshold.val 500000, Threshold.inf]
        [4, 25/4, 15/2] TimeUnit.year 1).totalAmount = 636500 ∧
    |(calculateSimple 600000 [Threshold.val 100000, Threshold.val 500000, Threshold.inf]
        [4, 25/4, 15/2] TimeUnit.year 1).effectiveRate - 60833/10000| < 1/10000 := by
  refine ⟨?_, ?_, ?_, ?_⟩ <;>
    norm_num [calculateSimple, simpleLoop, totalInterestOf, periodFactor,
      annualizedEffectiveRate, min_def, abs_lt]

/-- Helper: with strictly increasing finite boundaries above the running lower
bound followed by the Infinity sentinel, the loop allocates exactly the whole
remaining amount. -/
theorem sumAllocated_loop_eq (rates : List ℚ) (pf : ℚ) :
    ∀ (qs : List ℚ) (i : ℕ) (p rem : ℚ), 0 < rem → List.Chain (· < ·) p qs →
    sumAllocated (simpleLoop rates pf i (Threshold.val p) rem
      (qs.map Threshold.val ++ [Threshold.inf])) = rem := by
  intro qs
  induction qs with
  | nil =>
    intro i p rem hrem _
    simp [simpleLoop, sumAllocated, not_le.2 hrem]
  | cons q qs ih =>
    intro i p rem hrem hchain
    rcases List.chain_cons.mp hchain with ⟨hpq, hchain'⟩
    have hmin : 0 < min rem (q - p) := lt_min hrem (sub_pos.2 hpq)
    have hminle : min rem (q - p) ≤ rem := min_le_left _ _
    simp only [List.map_cons, List.cons_append, simpleLoop]
    rw [if_neg (not_le.2 hmin)]
    by_cases hz : rem - min rem (q - p) ≤ 0
    · have hq : min rem (q - p) = rem := le_antisymm hminle (by linarith)
      rw [if_pos hz]
      simp [sumAllocated, hq]
    · rw [if_neg hz]
      have hrec := ih (i + 1) q (rem - min rem (q - p)) (by linarith [not_le.1 hz]) hchain'
      simp only [sumAllocated, List.map_cons, List.sum_cons, List.append_eq] at hrec ⊢
      linarith

/-- C2 (amended): for every principal P > 0 and every configuration of
strictly increasing positive finite boundaries followed by the unbounded
sentinel, the sum of allocatedAmount over the breakdown equals P exactly —
the final unbounded tier absorbs the whole remainder, so the total is P, not
min(P, sum of finite tier capacities) as originally claimed. -/
theorem claim2_allocation_total (rates : List ℚ) (u : TimeUnit) (v : ℚ)
    (qs : List ℚ) (deposit : ℚ) (hdep : 0 < deposit)
    (hmono : List.Chain (· < ·) 0 qs) :
    sumAllocated ((calculateSimple deposit (qs.map Threshold.val ++ [Threshold.inf])
      rates u v).tierBreakdown) = deposit :=
  sumAllocated_loop_eq rates (periodFactor u v) qs 0 0 deposit hdep hmono

/-- Witness for claim2_allocation_total at the concrete scenario
configuration. -/
theorem claim2_allocation_total_witness :
    (0 : ℚ) < 600000 ∧
    sumAllocated ((calculateSimple 600000
      (([100000, 500000] : List ℚ).map Threshold.val ++ [Threshold.inf])
      [4, 25/4, 15/2] TimeUnit.year 1).tierBreakdown) = 600000 :=
  ⟨by norm_num,
    claim2_allocation_total [4, 25/4, 15/2] TimeUnit.year 1 [100000, 500000] 600000
      (by norm_num) (by norm_num [List.chain_cons])⟩

/-- Counterexample to C2 as stated: with boundaries [100000, Infinity] and
principal 200000, the code allocates the full 200000 (100000 to the finite
tier, the rest to the unbounded tier), while the claim's value
min(P, sum of finite tier capacities) = min(200000, 100000) = 100000. -/
theorem claim2_counterexample :
    sumAllocated ((calculateSimple 200000 [Threshold.val 100000, Threshold.inf]
      [4, 6] TimeUnit.year 1).tierBreakdown) = 200000 ∧
    min (200000 : ℚ)
      (specFiniteCapacitySum (Threshold.val 0) [Threshold.val 100000, Threshold.inf]) = 100000 ∧
    (200000 : ℚ) ≠ 100000 := by
  refine ⟨?_, ?_, by norm_num⟩
  · norm_num [calculateSimple, simpleLoop, sumAllocated, min_def]
  · norm_num [specFiniteCapacitySum, min_def]

/-- Helper: if a threshold equals its successor (a zero-width tier at relative
position k+1), every breakdown entry the loop emits has tier index at most
i + k: the zero-width tier makes amountInTier = min(remaining, 0) <= 0, which
breaks the loop before that tier and everything after it. -/
theorem simpleLoop_stops_at_zero_width (rates : List ℚ) (pf : ℚ) (c : ℚ) :
    ∀ (k : ℕ) (ts : List Threshold) (i : ℕ) (prev : Threshold) (rem : ℚ),
      0 ≤ rem → ts.get? k = some (Threshold.val c) →
      ts.get? (k + 1) = some (Threshold.val c) →
      ∀ e ∈ simpleLoop rates pf i prev rem ts, e.tier < i + k + 1 := by
  intro k
  induction k with
  | zero =>
    intro ts i prev rem hrem h0 h1 e he
    rcases ts with _ | ⟨t0, ts1⟩
    · simp at h0
    rcases ts1 with _ | ⟨t1, ts2⟩
    · simp at h1
    simp only [List.get?_cons_zero, Option.some.injEq] at h0
    simp only [List.get?_cons_succ, List.get?_cons_zero, Option.some.injEq] at h1
    subst h0
    subst h1
    rcases prev with p | _
    · rw [simpleLoop] at he
      by_cases ha : min rem (c - p) ≤ 0
      · rw [if_pos ha] at he
        simp at he
      · rw [if_neg ha] at he
        by_cases hb : rem - min rem (c - p) ≤ 0
        · rw [if_pos hb] at he
          simp only [List.mem_singleton] at he
          subst he
          exact lt_of_le_of_lt (le_refl i) (by omega)
        · rw [if_neg hb] at he
          rcases List.mem_cons.mp he with he | he
          · subst he
            exact lt_of_le_of_lt (le_refl i) (by omega)
          · rw [simpleLoop] at he
            have hz : min (rem - min rem (c - p)) (c - c) ≤ 0 := by
              have := min_le_right (rem - min rem (c - p)) (c - c)
              linarith
            rw [if_pos hz] at he
            simp at he
    · rw [simpleLoop] at he
      simp at he
  | succ k ih =>
    intro ts i prev rem hrem h0 h1 e he
    rcases ts with _ | ⟨t0, ts'⟩
    · simp at h0
    simp only [List.get?_cons_succ] at h0 h1
    rcases prev with p | _
    · rcases t0 with m | _
      · rw [simpleLoop] at he
        by_cases ha : min rem (m - p) ≤ 0
        · rw [if_pos ha] at he
          simp at he
        · rw [if_neg ha] at he
          by_cases hb : rem - min rem (m - p) ≤ 0
          · rw [if_pos hb] at he
            simp only [List.mem_singleton] at he
            subst he
            exact lt_of_le_of_lt (le_refl i) (by omega)
          · rw [if_neg hb] at he
            rcases List.mem_cons.mp he with he | he
            · subst he
              exact lt_of_le_of_lt (le_refl i) (by omega)
            · have hrem' : (0 : ℚ) ≤ rem - min rem (m - p) := by
                have := min_le_left rem (m - p)
                linarith
              have hrec := ih ts' (i + 1) (Threshold.val m) (rem - min rem (m - p)) hrem' h0 h1 e he
              omega
      · rw [simpleLoop] at he
        by_cases ha : rem ≤ 0
        · rw [if_pos ha] at he
          simp at he
        · rw [if_neg ha] at he
          simp only [List.mem_singleton] at he
          subst he
          exact lt_of_le_of_lt (le_refl i) (by omega)
    · rw [simpleLoop] at he
      simp at he

/-- C3 (amended): a zero-width tier (two equal consecutive boundary values at
positions k and k+1) never appears in the breakdown — but the loop does NOT
skip it and continue: allocation stops there, so no tier at or beyond the
zero-width tier receives any allocation, whatever the principal. -/
theorem claim3_zero_width_tier (deposit v c : ℚ) (u : TimeUnit) (rates : List ℚ)
    (ts : List Threshold) (k : ℕ) (hdep : 0 ≤ deposit)
    (h0 : ts.get? k = some (Threshold.val c))
    (h1 : ts.get? (k + 1) = some (Threshold.val c)) :
    ∀ e ∈ (calculateSimple deposit ts rates u v).tierBreakdown, e.tier < k + 1 := by
  intro e he
  have := simpleLoop_stops_at_zero_width rates (periodFactor u v) c k ts 0
    (Threshold.val 0) deposit hdep h0 h1 e he
  omega

/-- Witness for claim3_zero_width_tier: thresholds [100, 100, 200, Infinity],
principal 300; the only breakdown entry is tier 0 and its index is below 1. -/
theorem claim3_zero_width_tier_witness :
    (⟨0, 100, 1, 1⟩ : BreakdownEntry).tier < 0 + 1 :=
  claim3_zero_width_tier 300 1 100 TimeUnit.year [1, 2, 3, 4]
    [Threshold.val 100, Threshold.val 100, Threshold.val 200, Threshold.inf] 0
    (by norm_num) (by simp) (by simp) ⟨0, 100, 1, 1⟩
    (by norm_num [calculateSimple, simpleLoop, periodFactor, min_def])

/-- Counterexample to C3 as stated: thresholds [100, 100, 200, Infinity] with
principal 300, which reaches past the zero-width tier (capacities are 100, 0,
100 and unbounded).  The claim says the later tiers still receive their
allocations; in fact the breakdown is the single entry for tier 0 — the code
hits amountInTier = min(200, 0) = 0 <= 0 and breaks, so tiers 2 and 3 get
nothing. -/
theorem claim3_counterexample :
    (calculateSimple 300 [Threshold.val 100, Threshold.val 100, Threshold.val 200, Threshold.inf]
      [1, 2, 3, 4] TimeUnit.year 1).tierBreakdown = [⟨0, 100, 1, 1⟩] := by
  norm_num [calculateSimple, simpleLoop, periodFactor, min_def]

/-- Helper: every entry the compound loop emits carries interest
amount * (factor - 1), where factor = (1 + (rate/100)/n) ^ (n*t); this is the
source's finalAmount - amountInTier rewritten by distributivity. -/
theorem compoundLoop_interest_shape (rates : List ℚ) (n : ℕ) (t : ℚ) :
    ∀ (ts : List Threshold) (i : ℕ) (prev : Threshold) (rem : ℚ),
      ∀ e ∈ compoundLoop rates n t i prev rem ts,
        e.interest = (e.amount : ℝ) *
          ((1 + ((e.rate : ℝ) / 100) / (n : ℝ)) ^ ((n : ℝ) * (t : ℝ)) - 1) := by
  intro ts
  induction ts with
  | nil =>
    intro i prev rem e he
    rw [compoundLoop] at he
    simp at he
  | cons t0 ts ih =>
    intro i prev rem e he
    rcases prev with p | _
    · rcases t0 with m | _
      · rw [compoundLoop] at he
        by_cases ha : min rem (m - p) ≤ 0
        · rw [if_pos ha] at he
          simp at he
        · rw [if_neg ha] at he
          by_cases hb : rem - min rem (m - p) ≤ 0
          · rw [if_pos hb] at he
            simp only [List.mem_singleton] at he
            subst he
            show compoundTierInterest _ _ n t = _
            unfold compoundTierInterest
            ring
          · rw [if_neg hb] at he
            rcases List.mem_cons.mp he with he | he
            · subst he
              show compoundTierInterest _ _ n t = _
              unfold compoundTierInterest
              ring
            · exact ih (i + 1) (Threshold.val m) (rem - min rem (m - p)) e he
      · rw [compoundLoop] at he
        by_cases ha : rem ≤ 0
        · rw [if_pos ha] at he
          simp at he
        · rw [if_neg ha] at he
          simp only [List.mem_singleton] at he
          subst he
          show compoundTierInterest _ _ n t = _
          unfold compoundTierInterest
          ring
    · rw [compoundLoop] at he
      simp at he

/-- C6: in Compound mode every tier's interest equals
allocatedAmount * ((1 + (rate/100)/n) ^ (n*t) - 1), with n determined by the
frequency (annually 1, semiannually 2, quarterly 4, monthly 12) and t the
year fraction of the duration (day value/365, month value/12, quarter
value/4, year value). -/
theorem claim6_compound_tier_interest (deposit v : ℚ) (u : TimeUnit) (rates : List ℚ)
    (ts : List Threshold) (f : Frequency) (e : CBreakdownEntry)
    (he : e ∈ (calculateCompound deposit ts rates u v f).tierBreakdown) :
    e.interest = (e.amount : ℝ) *
      ((1 + ((e.rate : ℝ) / 100) / (compoundsPerYear f : ℝ)) ^
        ((compoundsPerYear f : ℝ) * ((timeInYears u v : ℚ) : ℝ)) - 1) :=
  compoundLoop_interest_shape rates (compoundsPerYear f) (timeInYears u v)
    ts 0 (Threshold.val 0) deposit e he

/-- Witness for claim6_compound_tier_interest: one tier of 100000 at rate 4,
compounded annually over 1 year. -/
theorem claim6_compound_tier_interest_witness :
    (⟨0, 100000, 4, compoundTierInterest 100000 4 1 1⟩ : CBreakdownEntry) ∈
      (calculateCompound 100000 [Threshold.inf] [4] TimeUnit.year 1
        Frequency.annually).tierBreakdown ∧
    (⟨0, 100000, 4, compoundTierInterest 100000 4 1 1⟩ : CBreakdownEntry).interest =
      (((⟨0, 100000, 4, compoundTierInterest 100000 4 1 1⟩ : CBreakdownEntry).amount : ℚ) : ℝ) *
        ((1 + (((⟨0, 100000, 4, compoundTierInterest 100000 4 1 1⟩ : CBreakdownEntry).rate : ℚ) : ℝ) / 100 /
          (compoundsPerYear Frequency.annually : ℝ)) ^
          ((compoundsPerYear Frequency.annually : ℝ) *
            ((timeInYears TimeUnit.year 1 : ℚ) : ℝ)) - 1) := by
  have hmem : (⟨0, 100000, 4, compoundTierInterest 100000 4 1 1⟩ : CBreakdownEntry) ∈
      (calculateCompound 100000 [Threshold.inf] [4] TimeUnit.year 1
        Frequency.annually).tierBreakdown := by
    norm_num [calculateCompound, compoundLoop, compoundsPerYear, timeInYears, List.getD]
  exact ⟨hmem, claim6_compound_tier_interest 100000 1 TimeUnit.year [4] [Threshold.inf]
    Frequency.annually _ hmem⟩

/-- Helper: the period factor is linear in the duration value. -/
theorem periodFactor_two_mul (u : TimeUnit) (v : ℚ) :
    periodFactor u (2 * v) = 2 * periodFactor u v := by
  rcases u <;> simp [periodFactor] <;> ring

/-- Helper: scaling the period factor scales every interest value, hence the
total, while the allocation itself never depends on the period factor. -/
theorem totalInterest_scale (rates : List ℚ) (pf c : ℚ) :
    ∀ (ts : List Threshold) (i : ℕ) (prev : Threshold) (rem : ℚ),
      totalInterestOf (simpleLoop rates (c * pf) i prev rem ts) =
        c * totalInterestOf (simpleLoop rates pf i prev rem ts) := by
  intro ts
  induction ts with
  | nil =>
    intro i prev rem
    simp [simpleLoop, totalInterestOf]
  | cons t0 ts ih =>
    intro i prev rem
    rcases prev with p | _
    · rcases t0 with m | _
      · rw [simpleLoop, simpleLoop]
        by_cases ha : min rem (m - p) ≤ 0
        · rw [if_pos ha, if_pos ha]
          simp [totalInterestOf]
        · rw [if_neg ha, if_neg ha]
          by_cases hb : rem - min rem (m - p) ≤ 0
          · rw [if_pos hb, if_pos hb]
            simp only [totalInterestOf, List.map_cons, List.map_nil, List.sum_cons,
              List.sum_nil]
            ring
          · rw [if_neg hb, if_neg hb]
            simp only [totalInterestOf, List.map_cons, List.sum_cons] at ih ⊢
            rw [ih]
            ring
      · rw [simpleLoop, simpleLoop]
        by_cases ha : rem ≤ 0
        · rw [if_pos ha, if_pos ha]
          simp [totalInterestOf]
        · rw [if_neg ha, if_neg ha]
          simp only [totalInterestOf, List.map_cons, List.map_nil, List.sum_cons,
            List.sum_nil]
          ring
    · rw [simpleLoop, simpleLoop]
      simp [totalInterestOf]

/-- Helper: every entry of the simple loop carries interest
amount * (rate/100) * periodFactor. -/
theorem simpleLoop_interest_formula (rates : List ℚ) (pf : ℚ) :
    ∀ (ts : List Threshold) (i : ℕ) (prev : Threshold) (rem : ℚ),
      ∀ e ∈ simpleLoop rates pf i prev rem ts,
        e.interest = e.amount * (e.rate / 100) * pf := by
  intro ts
  induction ts with
  | nil =>
    intro i prev rem e he
    rw [simpleLoop] at he
    simp at he
  | cons t0 ts ih =>
    intro i prev rem e he
    rcases prev with p | _
    · rcases t0 with m | _
      · rw [simpleLoop] at he
        by_cases ha : min rem (m - p) ≤ 0
        · rw [if_pos ha] at he
          simp at he
        · rw [if_neg ha] at he
          by_cases hb : rem - min rem (m - p) ≤ 0
          · rw [if_pos hb] at he
            simp only [List.mem_singleton] at he
            subst he
            rfl
          · rw [if_neg hb] at he
            rcases List.mem_cons.mp he with he | he
            · subst he
              rfl
            · exact ih (i + 1) (Threshold.val m) (rem - min rem (m - p)) e he
      · rw [simpleLoop] at he
        by_cases ha : rem ≤ 0
        · rw [if_pos ha] at he
          simp at he
        · rw [if_neg ha] at he
          simp only [List.mem_singleton] at he
          subst he
          rfl
    · rw [simpleLoop] at he
      simp at he

/-- C7: Simple-mode totalInterest is linear in the duration value — doubling
duration.value (same unit) exactly doubles totalInterest — and every per-tier
interest equals allocatedAmount * (rate/100) * t.  (Exact in the idealized
rational arithmetic used here.) -/
theorem claim7_simple_time_linearity (deposit v : ℚ) (u : TimeUnit) (rates : List ℚ)
    (ts : List Threshold) :
    (calculateSimple deposit ts rates u (2 * v)).totalInterest =
      2 * (calculateSimple deposit ts rates u v).totalInterest ∧
    ∀ e ∈ (calculateSimple deposit ts rates u v).tierBreakdown,
      e.interest = e.amount * (e.rate / 100) * periodFactor u v := by
  constructor
  · show totalInterestOf (simpleLoop rates (periodFactor u (2 * v)) 0 (Threshold.val 0)
      deposit ts) = 2 * totalInterestOf (simpleLoop rates (periodFactor u v) 0
      (Threshold.val 0) deposit ts)
    rw [periodFactor_two_mul]
    exact totalInterest_scale rates (periodFactor u v) 2 ts 0 (Threshold.val 0) deposit
  · exact simpleLoop_interest_formula rates (periodFactor u v) ts 0 (Threshold.val 0) deposit

/-- Witness for claim7_simple_time_linearity at the concrete scenario, with
the first breakdown entry. -/
theorem claim7_simple_time_linearity_witness :
    (⟨0, 100000, 4, 4000⟩ : BreakdownEntry).interest =
      (⟨0, 100000, 4, 4000⟩ : BreakdownEntry).amount *
        ((⟨0, 100000, 4, 4000⟩ : BreakdownEntry).rate / 100) * periodFactor TimeUnit.year 1 :=
  (claim7_simple_time_linearity 600000 1 TimeUnit.year [4, 25/4, 15/2]
      [Threshold.val 100000, Threshold.val 500000, Threshold.inf]).2
    ⟨0, 100000, 4, 4000⟩
    (by norm_num [calculateSimple, simpleLoop, periodFactor, min_def])

/-- C8: the effective annual rate is (totalInterest/principal)*100 when the
duration is exactly one year, and otherwise that raw rate times the inverse of
the year fraction t (equivalently times 365/value, 12/value, 4/value or
1/value according to the unit); this holds for both modes, which share the
annualization code. -/
theorem claim8_effective_rate (deposit v : ℚ) (u : TimeUnit) (rates : List ℚ)
    (ts : List Threshold) (f : Frequency) :
    (calculateSimple deposit ts rates u v).effectiveRate =
      (if u = TimeUnit.year ∧ v = 1 then
        (calculateSimple deposit ts rates u v).totalInterest / deposit * 100
      else
        (calculateSimple deposit ts rates u v).totalInterest / deposit * 100 *
          (1 / periodFactor u v)) ∧
    (calculateCompound deposit ts rates u v f).effectiveRate =
      (if u = TimeUnit.year ∧ v = 1 then
        (calculateCompound deposit ts rates u v f).totalInterest / (deposit : ℝ) * 100
      else
        (calculateCompound deposit ts rates u v f).totalInterest / (deposit : ℝ) * 100 *
          (1 / ((periodFactor u v : ℚ) : ℝ))) := by
  constructor
  · show annualizedEffectiveRate _ deposit u v = _
    unfold annualizedEffectiveRate
    by_cases h : u = TimeUnit.year ∧ v = 1
    · rw [if_pos h, if_pos h]
      rfl
    · rw [if_neg h, if_neg h]
      have : annualizationFactor u v = 1 / periodFactor u v := by
        rcases u <;> simp [annualizationFactor, periodFactor, one_div, inv_div]
      rw [this]
      rfl
  · show annualizedEffectiveRateR _ deposit u v = _
    unfold annualizedEffectiveRateR
    by_cases h : u = TimeUnit.year ∧ v = 1
    · rw [if_pos h, if_pos h]
      rfl
    · rw [if_neg h, if_neg h]
      have : annualizationFactorR u v = 1 / ((periodFactor u v : ℚ) : ℝ) := by
        rcases u <;> simp [annualizationFactorR, periodFactor, one_div, inv_div]
      rw [this]
      rfl

/-- Helper: calcStep in terms of the combined validation predicate. -/
theorem calcStep_eq (s : AppState) (inp : Inputs) :
    calcStep s inp =
      if passesValidation inp then
        { result := some (mkPayload inp)
          savedCalculations := (mkPayload inp :: s.savedCalculations).take 10 }
      else s := by
  unfold calcStep passesValidation
  cases ha : (jsIsNaN inp.principal || jsLe inp.principal (JSNum.fin 0)) <;>
    cases hb : (inp.rates.any fun r => jsIsNaN r || jsLt r (JSNum.fin 0)) <;>
      cases hc : (jsIsNaN inp.periodValue || jsLe inp.periodValue (JSNum.fin 0)) <;>
        simp

/-- Helper: a validated input produces the stored new result and updated
history. -/
theorem calcStep_of_passes (s : AppState) (inp : Inputs)
    (h : passesValidation inp = true) :
    calcStep s inp =
      { result := some (mkPayload inp)
        savedCalculations := (mkPayload inp :: s.savedCalculations).take 10 } := by
  rw [calcStep_eq, if_pos h]

/-- Helper: a rejected input leaves the state untouched. -/
theorem calcStep_of_fails (s : AppState) (inp : Inputs)
    (h : passesValidation inp = false) :
    calcStep s inp = s := by
  rw [calcStep_eq, if_neg (by simp [h])]

/-- C4 (amended): the code performs no configuration check at all.  For every
input that passes the numeric validation — including tier boundaries that are
not strictly increasing, or an unbounded sentinel before the last position — a
CalculationResult is produced and stored; allocation simply stops at the first
tier whose capacity is not positive. -/
theorem claim4_no_configuration_error (s : AppState) (inp : Inputs)
    (h : passesValidation inp = true) :
    (calcStep s inp).result = some (mkPayload inp) := by
  rw [calcStep_of_passes s inp h]

/-- Witness for claim4_no_configuration_error with a misplaced unbounded
sentinel (first position). -/
theorem claim4_no_configuration_error_witness :
    (calcStep ⟨none, []⟩
      ⟨JSNum.fin 600000, [Threshold.inf, Threshold.val 100000],
        [JSNum.fin 4, JSNum.fin 6], JSNum.fin 1, TimeUnit.year, Mode.simple⟩).result =
      some (mkPayload
        ⟨JSNum.fin 600000, [Threshold.inf, Threshold.val 100000],
          [JSNum.fin 4, JSNum.fin 6], JSNum.fin 1, TimeUnit.year, Mode.simple⟩) :=
  claim4_no_configuration_error ⟨none, []⟩ _ (by decide)

/-- Counterexample to C4 as stated: boundaries [500000, 100000, Infinity] are
not strictly increasing, yet the calculation does not fail — a result is
produced whose breakdown allocates 500000 to tier 0 and then stops (tier 1's
capacity is 100000 - 500000 = -400000, so amountInTier <= 0 breaks the loop).
No ConfigurationError exists anywhere in the code. -/
theorem claim4_counterexample :
    (calcStep ⟨none, []⟩
      ⟨JSNum.fin 600000, [Threshold.val 500000, Threshold.val 100000, Threshold.inf],
        [JSNum.fin 4, JSNum.fin 6, JSNum.fin 7], JSNum.fin 1, TimeUnit.year,
        Mode.simple⟩).result.isSome = true ∧
    (calculateSimple 600000 [Threshold.val 500000, Threshold.val 100000, Threshold.inf]
      [4, 6, 7] TimeUnit.year 1).tierBreakdown = [⟨0, 500000, 4, 20000⟩] := by
  constructor
  · rw [calcStep_of_passes _ _ (by decide)]
    rfl
  · norm_num [calculateSimple, simpleLoop, periodFactor, min_def]

/-- C5 (amended): the calculation is rejected — leaving the previous result
and saved history untouched — exactly when the parsed principal is NaN or
non-positive, or some rate is NaN or negative, or the duration value is NaN or
non-positive; otherwise a result is produced.  (The original claim's
"non-finite" is wrong: the checks are isNaN and sign tests only, so an
Infinity rate or duration passes validation.) -/
theorem claim5_validation_rejection (s : AppState) (inp : Inputs) :
    (passesValidation inp = false ↔
      ((jsIsNaN inp.principal || jsLe inp.principal (JSNum.fin 0)) = true ∨
        (inp.rates.any fun r => jsIsNaN r || jsLt r (JSNum.fin 0)) = true ∨
        (jsIsNaN inp.periodValue || jsLe inp.periodValue (JSNum.fin 0)) = true)) ∧
    (passesValidation inp = false → calcStep s inp = s) ∧
    (passesValidation inp = true → (calcStep s inp).result = some (mkPayload inp)) := by
  refine ⟨?_, fun h => calcStep_of_fails s inp h,
    fun h => by rw [calcStep_of_passes s inp h]⟩
  unfold passesValidation
  cases (jsIsNaN inp.principal || jsLe inp.principal (JSNum.fin 0)) <;>
    cases (inp.rates.any fun r => jsIsNaN r || jsLt r (JSNum.fin 0)) <;>
      cases (jsIsNaN inp.periodValue || jsLe inp.periodValue (JSNum.fin 0)) <;>
        simp

/-- Witness for claim5_validation_rejection: a non-positive principal is
rejected and the state (previous result and history) is unchanged. -/
theorem claim5_validation_rejection_witness :
    calcStep ⟨none, []⟩
      ⟨JSNum.fin (-5), [Threshold.val 100000, Threshold.inf],
        [JSNum.fin 4, JSNum.fin 6], JSNum.fin 1, TimeUnit.year, Mode.simple⟩ =
      ⟨none, []⟩ :=
  (claim5_validation_rejection ⟨none, []⟩ _).2.1 (by decide)

/-- Counterexample to C5 as stated: a rate of Infinity is non-finite, so the
claim demands rejection; but isNaN(Infinity) is false and Infinity < 0 is
false, so the source's validation passes and a result is produced. -/
theorem claim5_counterexample :
    specInvalidInputs
      ⟨JSNum.fin 600000, [Threshold.val 100000, Threshold.inf],
        [JSNum.posInf], JSNum.fin 1, TimeUnit.year, Mode.simple⟩ = true ∧
    passesValidation
      ⟨JSNum.fin 600000, [Threshold.val 100000, Threshold.inf],
        [JSNum.posInf], JSNum.fin 1, TimeUnit.year, Mode.simple⟩ = true ∧
    (calcStep ⟨none, []⟩
      ⟨JSNum.fin 600000, [Threshold.val 100000, Threshold.inf],
        [JSNum.posInf], JSNum.fin 1, TimeUnit.year, Mode.simple⟩).result.isSome = true := by
  refine ⟨by decide, by decide, ?_⟩
  rw [calcStep_of_passes _ _ (by decide)]
  rfl

/-- C9: after every successful calculation the history is the new result
prepended to the old history and truncated to 10 entries; hence it never
exceeds 10 entries and its first element is the new result.  Because this
holds for an arbitrary prior state, it holds after any sequence of
calculations. -/
theorem claim9_history_bound (s : AppState) (inp : Inputs)
    (h : passesValidation inp = true) :
    (calcStep s inp).savedCalculations = (mkPayload inp :: s.savedCalculations).take 10 ∧
    (calcStep s inp).savedCalculations.length ≤ 10 ∧
    (calcStep s inp).savedCalculations.head? = some (mkPayload inp) := by
  rw [calcStep_of_passes s inp h]
  refine ⟨rfl, ?_, ?_⟩
  · simp [List.length_take]
  · simp [List.take_succ_cons]

/-- Witness for claim9_history_bound on the empty history. -/
theorem claim9_history_bound_witness :
    (calcStep ⟨none, []⟩
      ⟨JSNum.fin 600000, [Threshold.val 100000, Threshold.inf],
        [JSNum.fin 4, JSNum.fin 6], JSNum.fin 1, TimeUnit.year, Mode.simple⟩).savedCalculations =
      (mkPayload
        ⟨JSNum.fin 600000, [Threshold.val 100000, Threshold.inf],
          [JSNum.fin 4, JSNum.fin 6], JSNum.fin 1, TimeUnit.year, Mode.simple⟩ :: []).take 10 ∧
    (calcStep ⟨none, []⟩
      ⟨JSNum.fin 600000, [Threshold.val 100000, Threshold.inf],
        [JSNum.fin 4, JSNum.fin 6], JSNum.fin 1, TimeUnit.year, Mode.simple⟩).savedCalculations.length ≤ 10 ∧
    (calcStep ⟨none, []⟩
      ⟨JSNum.fin 600000, [Threshold.val 100000, Threshold.inf],
        [JSNum.fin 4, JSNum.fin 6], JSNum.fin 1, TimeUnit.year, Mode.simple⟩).savedCalculations.head? =
      some (mkPayload
        ⟨JSNum.fin 600000, [Threshold.val 100000, Threshold.inf],
          [JSNum.fin 4, JSNum.fin 6], JSNum.fin 1, TimeUnit.year, Mode.simple⟩) :=
  claim9_history_bound ⟨none, []⟩ _ (by decide)

/-- Helper: setting at any index other than the one just before a final
singleton leaves the final singleton in place. -/
theorem set_append_singleton_ne {α : Type} :
    ∀ (pre : List α) (x v : α) (i : ℕ), i ≠ pre.length →
      (pre ++ [x]).set i v = pre.set i v ++ [x] := by
  intro pre
  induction pre with
  | nil =>
    intro x v i hi
    rcases i with _ | i
    · exact absurd rfl hi
    · rfl
  | cons a pre ih =>
    intro x v i hi
    rcases i with _ | i
    · rfl
    · simp only [List.cons_append, List.set_cons_succ]
      rw [ih x v i (by simpa using hi)]

/-- Helper: erasing at any index other than the one of a final singleton
leaves the final singleton in place. -/
theorem eraseIdx_append_singleton_ne {α : Type} :
    ∀ (pre : List α) (x : α) (i : ℕ), i ≠ pre.length →
      (pre ++ [x]).eraseIdx i = pre.eraseIdx i ++ [x] := by
  intro pre
  induction pre with
  | nil =>
    intro x i hi
    rcases i with _ | i
    · exact absurd rfl hi
    · rfl
  | cons a pre ih =>
    intro x i hi
    rcases i with _ | i
    · rfl
    · simp only [List.cons_append, List.eraseIdx_cons_succ]
      rw [ih x i (by simpa using hi)]

/-- Helper: erasing an index removes at most one element. -/
theorem length_eraseIdx_ge {α : Type} :
    ∀ (l : List α) (i : ℕ), l.length - 1 ≤ (l.eraseIdx i).length := by
  intro l
  induction l with
  | nil => intro i; simp
  | cons a l ih =>
    intro i
    rcases i with _ | i
    · simp
    · have := ih i
      simp only [List.eraseIdx_cons_succ, List.length_cons]
      omega

/-- The shape invariant of the threshold list: a nonempty prefix followed by
the Infinity sentinel. -/
def ThresholdShape (c : TierConfig) : Prop :=
  ∃ pre : List Threshold, c.thresholds = pre ++ [Threshold.inf] ∧ 1 ≤ pre.length

/-- Helper: every tier-editing action preserves the threshold-list shape. -/
theorem applyOp_preserves_shape (c : TierConfig) (op : TierOp)
    (h : ThresholdShape c) : ThresholdShape (applyOp c op) := by
  obtain ⟨pre, hpre, hlen⟩ := h
  have hlength : c.thresholds.length = pre.length + 1 := by
    rw [hpre]; simp
  rcases op with ⟨i, v⟩ | _ | i | _
  · show ThresholdShape (updateTierThreshold c i v)
    unfold updateTierThreshold
    by_cases hi : i = c.thresholds.length - 1
    · rw [if_pos hi]
      exact ⟨pre, hpre, hlen⟩
    · rw [if_neg hi]
      refine ⟨pre.set i v, ?_, by simpa using hlen⟩
      show c.thresholds.set i v = _
      rw [hpre, set_append_singleton_ne pre Threshold.inf v i (by omega)]
  · show ThresholdShape (addTier c)
    unfold addTier
    by_cases h10 : 10 ≤ c.thresholds.length
    · rw [if_pos h10]
      exact ⟨pre, hpre, hlen⟩
    · rw [if_neg h10]
      refine ⟨pre ++ [suggestedThreshold c], ?_, by simp⟩
      show c.thresholds.take (c.thresholds.length - 1) ++
        suggestedThreshold c :: c.thresholds.drop (c.thresholds.length - 1) = _
      rw [hpre]
      simp only [List.length_append, List.length_singleton, Nat.add_sub_cancel]
      rw [List.take_left, List.drop_left]
      simp
  · show ThresholdShape (removeTier c i)
    unfold removeTier
    by_cases h2 : c.thresholds.length ≤ 2
    · rw [if_pos h2]
      exact ⟨pre, hpre, hlen⟩
    · rw [if_neg h2]
      by_cases hi : i = c.thresholds.length - 1
      · rw [if_pos hi]
        exact ⟨pre, hpre, hlen⟩
      · rw [if_neg hi]
        refine ⟨pre.eraseIdx i, ?_, ?_⟩
        · show c.thresholds.eraseIdx i = _
          rw [hpre, eraseIdx_append_singleton_ne pre Threshold.inf i (by omega)]
        · have := length_eraseIdx_ge pre i
          omega
  · exact ⟨[Threshold.val 100000, Threshold.val 500000, Threshold.val 500000000],
      rfl, by norm_num⟩

/-- Helper: the shape invariant holds after any sequence of actions from any
configuration satisfying it. -/
theorem applyOps_preserves_shape :
    ∀ (ops : List TierOp) (c : TierConfig), ThresholdShape c →
      ThresholdShape (applyOps c ops) := by
  intro ops
  induction ops with
  | nil => intro c h; exact h
  | cons op ops ih =>
    intro c h
    exact ih (applyOp c op) (applyOp_preserves_shape c op h)

/-- C10: starting from the default configuration, any sequence of tier edits
keeps the Infinity sentinel as the last threshold and keeps at least two
thresholds; updateTierThreshold refuses the last index, removeTier refuses the
last index and refuses to shrink below two thresholds, and addTier (below the
10-tier cap) inserts the new threshold immediately before the last element. -/
theorem claim10_threshold_invariant :
    (∀ ops : List TierOp,
      (applyOps defaultConfig ops).thresholds.getLast? = some Threshold.inf ∧
      2 ≤ (applyOps defaultConfig ops).thresholds.length) ∧
    (∀ (c : TierConfig) (v : Threshold),
      updateTierThreshold c (c.thresholds.length - 1) v = c) ∧
    (∀ c : TierConfig, removeTier c (c.thresholds.length - 1) = c) ∧
    (∀ (c : TierConfig) (i : ℕ), c.thresholds.length ≤ 2 → removeTier c i = c) ∧
    (∀ (c : TierConfig) (pre : List Threshold) (x : Threshold),
      c.thresholds = pre ++ [x] → c.thresholds.length < 10 →
      (addTier c).thresholds = pre ++ [suggestedThreshold c, x]) := by
  refine ⟨?_, ?_, ?_, ?_, ?_⟩
  · intro ops
    have hshape : ThresholdShape (applyOps defaultConfig ops) :=
      applyOps_preserves_shape ops defaultConfig
        ⟨[Threshold.val 100000, Threshold.val 500000, Threshold.val 500000000],
          rfl, by norm_num⟩
    obtain ⟨pre, hpre, hlen⟩ := hshape
    rw [hpre]
    constructor
    · exact List.getLast?_concat pre
    · simp only [List.length_append, List.length_singleton]
      omega
  · intro c v
    unfold updateTierThreshold
    rw [if_pos rfl]
  · intro c
    unfold removeTier
    by_cases h2 : c.thresholds.length ≤ 2
    · rw [if_pos h2]
    · rw [if_neg h2, if_pos rfl]
  · intro c i h2
    unfold removeTier
    rw [if_pos h2]
  · intro c pre x hpre h10
    unfold addTier
    rw [if_neg (by omega)]
    show c.thresholds.take (c.thresholds.length - 1) ++
      suggestedThreshold c :: c.thresholds.drop (c.thresholds.length - 1) = _
    rw [hpre]
    simp only [List.length_append, List.length_singleton, Nat.add_sub_cancel]
    rw [List.take_left, List.drop_left]

/-- Witness for claim10_threshold_invariant: a concrete action sequence, and
the mechanism clauses at the default configuration. -/
theorem claim10_threshold_invariant_witness :
    ((applyOps defaultConfig
        [TierOp.add, TierOp.remove 0, TierOp.update 0 (Threshold.val 50),
          TierOp.reset]).thresholds.getLast? = some Threshold.inf ∧
      2 ≤ (applyOps defaultConfig
        [TierOp.add, TierOp.remove 0, TierOp.update 0 (Threshold.val 50),
          TierOp.reset]).thresholds.length) ∧
    (addTier defaultConfig).thresholds =
      [Threshold.val 100000, Threshold.val 500000, Threshold.val 500000000] ++
        [suggestedThreshold defaultConfig, Threshold.inf] :=
  ⟨claim10_threshold_invariant.1
      [TierOp.add, TierOp.remove 0, TierOp.update 0 (Threshold.val 50), TierOp.reset],
    claim10_threshold_invariant.2.2.2.2 defaultConfig
      [Threshold.val 100000, Threshold.val 500000, Threshold.val 500000000]
      Threshold.inf rfl (by norm_num [defaultConfig, defaultThresholds])⟩
